import Mathlib

/-!
Verification of the resource-lifecycle core of the learn_SDL examples:
the variadic `cleanup` helper, the `LTexture` wrapper, the free function
`renderTexture`, and the program-level `close` teardown.

Pointers into the external SDL library are modelled as `Option Handle`
(`none` is a null pointer), and calls into the library are recorded as a
trace of `LibCall` events.
-/

/-- The four resource kinds handled by the `cleanup` template
specializations in main.cpp: window, renderer, texture, surface. -/
inductive ResourceKind where
  | window
  | renderer
  | texture
  | surface
deriving DecidableEq, Repr

/-- Opaque value of a non-null library handle. -/
abbrev Handle := Nat

/-- SDL_Rect: position x, y and size w, h, as C ints. -/
structure SDLRect where
  x : Int
  y : Int
  w : Int
  h : Int
deriving DecidableEq, Repr

/-- Calls into the external SDL library that the embedded code can make,
recorded as trace events. -/
inductive LibCall where
  | destroyWindow (h : Handle)
  | destroyRenderer (h : Handle)
  | destroyTexture (h : Handle)
  | freeSurface (h : Handle)
  | createTexture (h : Handle)
  | setTextureColorMod (h : Handle) (r g b : Nat)
  | renderCopy (tex : Handle) (clip : Option SDLRect) (dst : SDLRect)
  | imgQuit
  | sdlQuit
deriving DecidableEq, Repr

/-- The kind-specific release operation of each resource kind:
SDL_DestroyWindow, SDL_DestroyRenderer, SDL_DestroyTexture,
SDL_FreeSurface. -/
def releaseCall : ResourceKind → Handle → LibCall
  | .window, h => .destroyWindow h
  | .renderer, h => .destroyRenderer h
  | .texture, h => .destroyTexture h
  | .surface, h => .freeSurface h

/-- The four single-argument specializations of `cleanup` in main.cpp:
each returns immediately on a null pointer and otherwise performs the
kind-specific destroy call. -/
def cleanup1 : ResourceKind → Option Handle → List LibCall
  | _, none => []
  | .window, some h => [.destroyWindow h]
  | .renderer, some h => [.destroyRenderer h]
  | .texture, some h => [.destroyTexture h]
  | .surface, some h => [.freeSurface h]

/-- The variadic `cleanup(T* t, Args&&... args)` template of main.cpp:
clean up the first argument, then recurse on the remaining arguments. -/
def cleanup : List (ResourceKind × Option Handle) → List LibCall
  | [] => []
  | (k, h) :: rest => cleanup1 k h ++ cleanup rest

/-- Instrumented form of `cleanup` that also counts the single-handle
(base-case specialization) dispatches performed by the recursion. -/
def cleanupCount : List (ResourceKind × Option Handle) → List LibCall × Nat
  | [] => ([], 0)
  | (k, h) :: rest => (cleanup1 k h ++ (cleanupCount rest).1, 1 + (cleanupCount rest).2)

/-- The handle value carried by a library call (0 for the argumentless
quit calls, which are never release calls). -/
def handleOf : LibCall → Handle
  | .destroyWindow h => h
  | .destroyRenderer h => h
  | .destroyTexture h => h
  | .freeSurface h => h
  | .createTexture h => h
  | .setTextureColorMod h _ _ _ => h
  | .renderCopy tex _ _ => tex
  | .imgQuit => 0
  | .sdlQuit => 0

theorem cleanup1_eq (k : ResourceKind) (h : Option Handle) :
    cleanup1 k h = (h.map (releaseCall k)).toList := by
  cases h <;> cases k <;> rfl

theorem cleanup_eq_filterMap (l : List (ResourceKind × Option Handle)) :
    cleanup l = l.filterMap (fun p => p.2.map (releaseCall p.1)) := by
  induction l with
  | nil => rfl
  | cons p rest ih =>
    obtain ⟨k, h⟩ := p
    cases h <;> simp [cleanup, cleanup1_eq, ih, List.filterMap_cons]

theorem handleOf_releaseCall (k : ResourceKind) (h : Handle) :
    handleOf (releaseCall k h) = h := by
  cases k <;> rfl

theorem map_handleOf_cleanup (l : List (ResourceKind × Option Handle)) :
    (cleanup l).map handleOf = l.filterMap (fun p => p.2) := by
  induction l with
  | nil => rfl
  | cons p rest ih =>
    obtain ⟨k, h⟩ := p
    cases h <;> simp [cleanup, cleanup1_eq, handleOf_releaseCall, ih, List.filterMap_cons]

/-- C1: the bulk releaser `cleanup` invokes the kind-specific release
operation for exactly the present (non-null) handles of its argument list,
strictly in left-to-right order with no reordering, skipping absent (null)
handles as no-ops, and is a total function (raises no error). -/
theorem cleanup_releases_present_in_order
    (l : List (ResourceKind × Option Handle)) :
    cleanup l = l.filterMap (fun p => p.2.map (releaseCall p.1)) :=
  cleanup_eq_filterMap l

/-- C2 counterexample: passing the same non-null texture handle twice makes
`cleanup` emit the destroy call for that handle twice, refuting the claim
that no handle is released more than once when a value appears twice. -/
theorem cleanup_duplicate_double_release :
    ¬ (cleanup [(ResourceKind.texture, some 5), (ResourceKind.texture, some 5)]).count
        (LibCall.destroyTexture 5) ≤ 1 := by
  decide

/-- C2 amended: `cleanup` performs one release call per present list entry,
so provided the present handles in the input list are pairwise distinct, no
release call is emitted more than once. -/
theorem cleanup_nodup_handles_no_double_release
    (l : List (ResourceKind × Option Handle))
    (hnd : (l.filterMap (fun p => p.2)).Nodup) (c : LibCall) :
    (cleanup l).count c ≤ 1 := by
  have h1 : ((cleanup l).map handleOf).Nodup := by
    rw [map_handleOf_cleanup]
    exact hnd
  exact List.nodup_iff_count_le_one.mp (List.Nodup.of_map handleOf h1) c

/-- Witness for the amended C2 at a concrete duplicate-free list. -/
theorem cleanup_nodup_handles_no_double_release_witness :
    ([((ResourceKind.window : ResourceKind), (none : Option Handle)),
        (ResourceKind.renderer, some 1), (ResourceKind.texture, none)].filterMap
          (fun p => p.2)).Nodup
      ∧ (cleanup [(ResourceKind.window, none),
            (ResourceKind.renderer, some 1), (ResourceKind.texture, none)]).count
          (LibCall.destroyRenderer 1) ≤ 1 :=
  ⟨by decide,
   cleanup_nodup_handles_no_double_release
     [(ResourceKind.window, none), (ResourceKind.renderer, some 1),
       (ResourceKind.texture, none)] (by decide) (LibCall.destroyRenderer 1)⟩

/-- C9: the variadic `cleanup` recursion terminates on every finite
argument list: each step strips exactly one handle, so a call with n
handles performs exactly n single-handle dispatches and then returns,
producing the same release calls as `cleanup`. -/
theorem cleanup_terminates_n_dispatches
    (l : List (ResourceKind × Option Handle)) :
    (cleanupCount l).2 = l.length ∧ (cleanupCount l).1 = cleanup l := by
  induction l with
  | nil => exact ⟨rfl, rfl⟩
  | cons p rest ih =>
    obtain ⟨k, h⟩ := p
    refine ⟨?_, ?_⟩
    · simp [cleanupCount, ih.1, Nat.add_comm]
    · simp [cleanupCount, cleanup, ih.2]

/-- The LTexture class of LTexture.h: the hardware texture handle plus the
stored image dimensions mWidth and mHeight. -/
structure LTexture where
  mTexture : Option Handle
  mWidth : Nat
  mHeight : Nat
deriving DecidableEq, Repr

/-- Modelled from the spec: the external image-decoding pipeline used by
`loadFromFile` (IMG_Load followed by SDL_CreateTextureFromSurface), whose
implementation lives in the SDL libraries outside this repository. A decode
maps a path to either failure or a texture handle with its pixel width and
height. -/
structure RenderEnv where
  decode : String → Option (Handle × Nat × Nat)

/-- Modelled from the spec: the constructor `LTexture::LTexture()` (the
LTexture implementation file is absent from the sources; LTexture.h only
declares it); the texture is created empty, with absent handle and zero
dimensions. -/
def LTexture.new : LTexture := ⟨none, 0, 0⟩

/-- Modelled from the spec: `LTexture::free()` (implementation absent from
the sources); if Loaded, destroy the held texture and reset to Empty with
zero dimensions; if already Empty, a no-op. -/
def LTexture.free (t : LTexture) : LTexture × List LibCall :=
  match t.mTexture with
  | some h => (⟨none, 0, 0⟩, [.destroyTexture h])
  | none => (t, [])

/-- Modelled from the spec: `LTexture::loadFromFile` (implementation absent
from the sources); free any previously held texture first, then decode the
image at `path` through the renderer; on success store the new handle and
the decoded pixel dimensions and return true; on failure remain Empty and
return false. -/
def LTexture.loadFromFile (t : LTexture) (env : RenderEnv) (path : String) :
    LTexture × Bool × List LibCall :=
  let r := t.free
  match env.decode path with
  | some (h, w, ht) => (⟨some h, w, ht⟩, true, r.2 ++ [.createTexture h])
  | none => (r.1, false, r.2)

/-- Modelled from the spec: `LTexture::render` (implementation absent from
the sources); while Loaded, issue a render-copy whose source region is the
optional clip and whose destination at (x, y) is sized by the clip when one
is given, else by the stored dimensions; while Empty, a no-op. The object
itself is not modified. -/
def LTexture.render (t : LTexture) (x y : Int) (clip : Option SDLRect) :
    LTexture × List LibCall :=
  match t.mTexture with
  | some h =>
    let dst : SDLRect :=
      match clip with
      | some c => ⟨x, y, c.w, c.h⟩
      | none => ⟨x, y, (t.mWidth : Int), (t.mHeight : Int)⟩
    (t, [.renderCopy h clip dst])
  | none => (t, [])

/-- Modelled from the spec: `LTexture::setColor` (implementation absent
from the sources; called from main.cpp as color modulation); while Loaded,
set the texture color modulation; no effect while Empty. The handle and
dimensions are not modified. -/
def LTexture.setColor (t : LTexture) (r g b : Nat) : LTexture × List LibCall :=
  match t.mTexture with
  | some h => (t, [.setTextureColorMod h r g b])
  | none => (t, [])

/-- Accessor `LTexture::getWidth`. -/
def LTexture.getWidth (t : LTexture) : Nat := t.mWidth

/-- Accessor `LTexture::getHeight`. -/
def LTexture.getHeight (t : LTexture) : Nat := t.mHeight

/-- The LTexture invariant of the spec, relative to the library's
query-texture-dimensions function `q`: when the handle is present the
stored dimensions equal the queried ones; when absent both are zero. -/
def LTexture.Inv (q : Handle → Nat × Nat) (t : LTexture) : Prop :=
  match t.mTexture with
  | some h => t.mWidth = (q h).1 ∧ t.mHeight = (q h).2
  | none => t.mWidth = 0 ∧ t.mHeight = 0

/-- The decode pipeline is coherent with the dimension query: the
dimensions stored for a decoded texture are the ones the library would
report for that handle. -/
def Coherent (env : RenderEnv) (q : Handle → Nat × Nat) : Prop :=
  ∀ p h w ht, env.decode p = some (h, w, ht) → q h = (w, ht)

theorem free_fst_eq (t : LTexture)
    (hwf : t.mTexture = none → t.mWidth = 0 ∧ t.mHeight = 0) :
    t.free.1 = ⟨none, 0, 0⟩ := by
  obtain ⟨mt, w, h⟩ := t
  cases mt with
  | none =>
    obtain ⟨hw, hh⟩ := hwf rfl
    subst hw
    subst hh
    rfl
  | some a => rfl

theorem free_free (t : LTexture) : t.free.1.free = (t.free.1, []) := by
  obtain ⟨mt, w, h⟩ := t
  cases mt <;> rfl

/-- C3: free is idempotent — from any well-formed state, a second free is a
no-op (same state, no library calls), and after either free the handle is
absent and both dimensions are zero (Empty state). -/
theorem free_idempotent (t : LTexture)
    (hwf : t.mTexture = none → t.mWidth = 0 ∧ t.mHeight = 0) :
    t.free.1.free.1 = t.free.1 ∧ t.free.1.free.2 = []
      ∧ t.free.1 = ⟨none, 0, 0⟩ := by
  refine ⟨?_, ?_, free_fst_eq t hwf⟩
  · rw [free_free]
  · rw [free_free]

/-- Witness for C3 at a loaded texture with handle 3 and dimensions 4 x 5. -/
theorem free_idempotent_witness :
    ((LTexture.mk (some 3) 4 5).mTexture = none →
        (LTexture.mk (some 3) 4 5).mWidth = 0 ∧ (LTexture.mk (some 3) 4 5).mHeight = 0)
      ∧ ((LTexture.mk (some 3) 4 5).free.1.free.1 = (LTexture.mk (some 3) 4 5).free.1
          ∧ (LTexture.mk (some 3) 4 5).free.1.free.2 = []
          ∧ (LTexture.mk (some 3) 4 5).free.1 = ⟨none, 0, 0⟩) :=
  ⟨by decide, free_idempotent (LTexture.mk (some 3) 4 5) (by decide)⟩

/-- C4: when decoding the asset fails, loadFromFile returns failure and
leaves the texture Empty with zero width and height; no partial state is
observable, and a subsequent render is a no-op. -/
theorem load_failure_leaves_empty (t : LTexture) (env : RenderEnv) (path : String)
    (hwf : t.mTexture = none → t.mWidth = 0 ∧ t.mHeight = 0)
    (hfail : env.decode path = none) :
    (t.loadFromFile env path).2.1 = false
      ∧ (t.loadFromFile env path).1 = ⟨none, 0, 0⟩
      ∧ ∀ x y clip, ((t.loadFromFile env path).1.render x y clip).2 = [] := by
  have h1 : t.free.1 = ⟨none, 0, 0⟩ := free_fst_eq t hwf
  refine ⟨?_, ?_, ?_⟩
  · simp [LTexture.loadFromFile, hfail]
  · simp [LTexture.loadFromFile, hfail, h1]
  · intro x y clip
    simp [LTexture.loadFromFile, hfail, h1, LTexture.render]

/-- Witness for C4 at a loaded texture and an always-failing decoder. -/
theorem load_failure_leaves_empty_witness :
    ((LTexture.mk (some 2) 3 3).mTexture = none →
        (LTexture.mk (some 2) 3 3).mWidth = 0 ∧ (LTexture.mk (some 2) 3 3).mHeight = 0)
      ∧ (RenderEnv.mk (fun _ => none)).decode "missing.png" = none
      ∧ (((LTexture.mk (some 2) 3 3).loadFromFile (RenderEnv.mk (fun _ => none))
            "missing.png").2.1 = false
          ∧ ((LTexture.mk (some 2) 3 3).loadFromFile (RenderEnv.mk (fun _ => none))
              "missing.png").1 = ⟨none, 0, 0⟩
          ∧ ∀ x y clip, (((LTexture.mk (some 2) 3 3).loadFromFile
              (RenderEnv.mk (fun _ => none)) "missing.png").1.render x y clip).2 = []) :=
  ⟨by decide, rfl,
   load_failure_leaves_empty (LTexture.mk (some 2) 3 3) (RenderEnv.mk (fun _ => none))
     "missing.png" (by decide) rfl⟩

/-- C5: no leak on reload — with texture handle A held, a load first emits
the destroy of A before the creation of any new handle, and the handle held
after the load is exactly the decode result, so A is not retained. -/
theorem reload_releases_old_handle (t : LTexture) (env : RenderEnv)
    (path : String) (a : Handle) (ha : t.mTexture = some a) :
    (t.loadFromFile env path).2.2 =
        LibCall.destroyTexture a ::
          ((env.decode path).map (fun x => LibCall.createTexture x.1)).toList
      ∧ (t.loadFromFile env path).1.mTexture = (env.decode path).map (fun x => x.1) := by
  obtain ⟨mt, w, h⟩ := t
  cases mt with
  | none => exact absurd ha (by simp)
  | some b =>
    have hb : b = a := by simpa using ha
    subst hb
    cases hd : env.decode path with
    | none => simp [LTexture.loadFromFile, LTexture.free, hd]
    | some x =>
      obtain ⟨hl, wpx, hpx⟩ := x
      simp [LTexture.loadFromFile, LTexture.free, hd]

/-- Witness for C5 at a texture holding handle 2 and a decoder yielding
handle 9. -/
theorem reload_releases_old_handle_witness :
    (LTexture.mk (some 2) 3 3).mTexture = some 2
      ∧ (((LTexture.mk (some 2) 3 3).loadFromFile
            (RenderEnv.mk (fun _ => some (9, 6, 7))) "b.png").2.2 =
          LibCall.destroyTexture 2 ::
            (((RenderEnv.mk (fun _ => some (9, 6, 7))).decode "b.png").map
              (fun x => LibCall.createTexture x.1)).toList
        ∧ ((LTexture.mk (some 2) 3 3).loadFromFile
            (RenderEnv.mk (fun _ => some (9, 6, 7))) "b.png").1.mTexture =
          ((RenderEnv.mk (fun _ => some (9, 6, 7))).decode "b.png").map (fun x => x.1)) :=
  ⟨rfl,
   reload_releases_old_handle (LTexture.mk (some 2) 3 3)
     (RenderEnv.mk (fun _ => some (9, 6, 7))) "b.png" 2 rfl⟩

/-- C6: every operation of the texture resource preserves the dimension
invariant: the fresh texture satisfies it, and free, loadFromFile (under a
decode pipeline coherent with the dimension query), render and setColor all
carry it from their input state to their output state. -/
theorem operations_preserve_invariant (q : Handle → Nat × Nat)
    (env : RenderEnv) (hco : Coherent env q) :
    LTexture.Inv q LTexture.new
      ∧ (∀ t, LTexture.Inv q t → LTexture.Inv q t.free.1)
      ∧ (∀ t path, LTexture.Inv q t → LTexture.Inv q (t.loadFromFile env path).1)
      ∧ (∀ t x y clip, LTexture.Inv q t → LTexture.Inv q (t.render x y clip).1)
      ∧ (∀ t r g b, LTexture.Inv q t → LTexture.Inv q (t.setColor r g b).1) := by
  have hfree : ∀ t : LTexture, LTexture.Inv q t → LTexture.Inv q t.free.1 := by
    intro t hi
    obtain ⟨mt, w, h⟩ := t
    cases mt with
    | none => exact hi
    | some a => exact ⟨rfl, rfl⟩
  refine ⟨⟨rfl, rfl⟩, hfree, ?_, ?_, ?_⟩
  · intro t path hi
    cases hd : env.decode path with
    | none =>
      have : (t.loadFromFile env path).1 = t.free.1 := by
        simp [LTexture.loadFromFile, hd]
      rw [this]
      exact hfree t hi
    | some x =>
      obtain ⟨hl, wpx, hpx⟩ := x
      have hq : q hl = (wpx, hpx) := hco path hl wpx hpx hd
      have : (t.loadFromFile env path).1 = ⟨some hl, wpx, hpx⟩ := by
        simp [LTexture.loadFromFile, hd]
      rw [this]
      exact ⟨by rw [hq], by rw [hq]⟩
  · intro t x y clip hi
    obtain ⟨mt, w, h⟩ := t
    cases mt <;> cases clip <;> exact hi
  · intro t r g b hi
    obtain ⟨mt, w, h⟩ := t
    cases mt <;> exact hi

/-- Witness for C6 with an always-failing decoder (vacuously coherent) and
a loaded texture. -/
theorem operations_preserve_invariant_witness :
    Coherent (RenderEnv.mk (fun _ => none)) (fun _ => (4, 4))
      ∧ (LTexture.Inv (fun _ => (4, 4)) LTexture.new
          ∧ (∀ t, LTexture.Inv (fun _ => (4, 4)) t →
              LTexture.Inv (fun _ => (4, 4)) t.free.1)
          ∧ (∀ t path, LTexture.Inv (fun _ => (4, 4)) t →
              LTexture.Inv (fun _ => (4, 4))
                (t.loadFromFile (RenderEnv.mk (fun _ => none)) path).1)
          ∧ (∀ t x y clip, LTexture.Inv (fun _ => (4, 4)) t →
              LTexture.Inv (fun _ => (4, 4)) (t.render x y clip).1)
          ∧ (∀ t r g b, LTexture.Inv (fun _ => (4, 4)) t →
              LTexture.Inv (fun _ => (4, 4)) (t.setColor r g b).1)) :=
  ⟨fun _ _ _ _ hp => Option.noConfusion hp,
   operations_preserve_invariant (fun _ => (4, 4)) (RenderEnv.mk (fun _ => none))
     (fun _ _ _ _ hp => Option.noConfusion hp)⟩

/-- C7: after a successful load of an asset with pixel dimensions W x H,
loadFromFile returns true and getWidth and getHeight report W and H. -/
theorem load_success_dimensions (t : LTexture) (env : RenderEnv)
    (path : String) (hl : Handle) (wpx hpx : Nat)
    (hdec : env.decode path = some (hl, wpx, hpx)) :
    (t.loadFromFile env path).2.1 = true
      ∧ (t.loadFromFile env path).1.getWidth = wpx
      ∧ (t.loadFromFile env path).1.getHeight = hpx := by
  refine ⟨?_, ?_, ?_⟩ <;>
    simp [LTexture.loadFromFile, hdec, LTexture.getWidth, LTexture.getHeight]

/-- Witness for C7 at a 4 x 4 asset. -/
theorem load_success_dimensions_witness :
    (RenderEnv.mk (fun _ => some (7, 4, 4))).decode "4x4.png" = some (7, 4, 4)
      ∧ ((LTexture.new.loadFromFile (RenderEnv.mk (fun _ => some (7, 4, 4)))
            "4x4.png").2.1 = true
          ∧ (LTexture.new.loadFromFile (RenderEnv.mk (fun _ => some (7, 4, 4)))
              "4x4.png").1.getWidth = 4
          ∧ (LTexture.new.loadFromFile (RenderEnv.mk (fun _ => some (7, 4, 4)))
              "4x4.png").1.getHeight = 4) :=
  ⟨rfl,
   load_success_dimensions LTexture.new (RenderEnv.mk (fun _ => some (7, 4, 4)))
     "4x4.png" 7 4 4 rfl⟩

/-- The renderTexture overload of main.cpp taking a position and an
optional clip: the destination rectangle is placed at (x, y) and sized by
the clip when one is supplied, else by SDL_QueryTexture (modelled by
`query`); SDL_RenderCopy receives the clip as the source region. -/
def renderTexture (query : Handle → Int × Int) (tex : Handle) (x y : Int)
    (clip : Option SDLRect) : LibCall :=
  let dst : SDLRect :=
    match clip with
    | some c => ⟨x, y, c.w, c.h⟩
    | none => ⟨x, y, (query tex).1, (query tex).2⟩
  .renderCopy tex clip dst

/-- C8: rendering uses the resource's own width and height as the
destination size when no source region is supplied, and the region's width
and height when one is, the region being passed as the copy's source:
stated for the free function renderTexture of main.cpp and for the
spec-modelled LTexture.render on a Loaded texture. -/
theorem render_destination_size (query : Handle → Int × Int) (tex : Handle)
    (x y : Int) (c : SDLRect) (t : LTexture) (hdl : Handle)
    (hload : t.mTexture = some hdl) :
    renderTexture query tex x y none
        = LibCall.renderCopy tex none ⟨x, y, (query tex).1, (query tex).2⟩
      ∧ renderTexture query tex x y (some c)
        = LibCall.renderCopy tex (some c) ⟨x, y, c.w, c.h⟩
      ∧ (t.render x y none).2
        = [LibCall.renderCopy hdl none ⟨x, y, (t.mWidth : Int), (t.mHeight : Int)⟩]
      ∧ (t.render x y (some c)).2
        = [LibCall.renderCopy hdl (some c) ⟨x, y, c.w, c.h⟩] := by
  refine ⟨rfl, rfl, ?_, ?_⟩ <;> simp [LTexture.render, hload]

/-- Witness for C8 at a loaded 4 x 4 texture drawn at (10, 20) with and
without a 2 x 3 clip. -/
theorem render_destination_size_witness :
    (LTexture.mk (some 7) 4 4).mTexture = some 7
      ∧ (renderTexture (fun _ => (4, 4)) 7 10 20 none
            = LibCall.renderCopy 7 none ⟨10, 20, ((fun _ => ((4 : Int), (4 : Int))) 7).1,
                ((fun _ => ((4 : Int), (4 : Int))) 7).2⟩
          ∧ renderTexture (fun _ => ((4 : Int), (4 : Int))) 7 10 20 (some ⟨0, 0, 2, 3⟩)
            = LibCall.renderCopy 7 (some ⟨0, 0, 2, 3⟩) ⟨10, 20, 2, 3⟩
          ∧ ((LTexture.mk (some 7) 4 4).render 10 20 none).2
            = [LibCall.renderCopy 7 none ⟨10, 20, ((4 : Nat) : Int), ((4 : Nat) : Int)⟩]
          ∧ ((LTexture.mk (some 7) 4 4).render 10 20 (some ⟨0, 0, 2, 3⟩)).2
            = [LibCall.renderCopy 7 (some ⟨0, 0, 2, 3⟩) ⟨10, 20, 2, 3⟩]) :=
  ⟨rfl,
   render_destination_size (fun _ => ((4 : Int), (4 : Int))) 7 10 20 ⟨0, 0, 2, 3⟩
     (LTexture.mk (some 7) 4 4) 7 rfl⟩

/-- The global handle state of the viewport example (part_000): the current
texture, the window and the renderer. -/
structure ViewportGlobals where
  gTexture : Option Handle
  gWindow : Option Handle
  gRenderer : Option Handle
deriving DecidableEq, Repr

/-- The close() function of the viewport example (part_000):
cleanup(gTexture, gWindow, gRenderer), null out the three globals, then
IMG_Quit and SDL_Quit. -/
def ViewportGlobals.close (s : ViewportGlobals) : ViewportGlobals × List LibCall :=
  (⟨none, none, none⟩,
   cleanup [(.texture, s.gTexture), (.window, s.gWindow), (.renderer, s.gRenderer)]
     ++ [.imgQuit, .sdlQuit])

/-- The global state of the color-modulation example (main.cpp): the raw
handles nulled by close() plus the LTexture globals it frees. -/
structure MainGlobals where
  gTexture : Option Handle
  gWindow : Option Handle
  gRenderer : Option Handle
  gFooTexture : LTexture
  gBackgroundTexture : LTexture
deriving DecidableEq, Repr

/-- The close() function of main.cpp: free the gFooTexture and
gBackgroundTexture globals, then cleanup(gTexture, gWindow, gRenderer),
null the raw globals, then IMG_Quit and SDL_Quit. -/
def MainGlobals.close (s : MainGlobals) : MainGlobals × List LibCall :=
  let f := s.gFooTexture.free
  let b := s.gBackgroundTexture.free
  (⟨none, none, none, f.1, b.1⟩,
   f.2 ++ b.2
     ++ cleanup [(.texture, s.gTexture), (.window, s.gWindow), (.renderer, s.gRenderer)]
     ++ [.imgQuit, .sdlQuit])

/-- C10: close() is idempotent with respect to resource release: after any
close the global texture, window and renderer handles are null, so a second
close passes only null handles to cleanup and emits no destroy or free
calls (only the two quit calls) — shown for both example programs. -/
theorem close_idempotent_release (s : ViewportGlobals) (m : MainGlobals) :
    s.close.1.gTexture = none ∧ s.close.1.gWindow = none
      ∧ s.close.1.gRenderer = none
      ∧ s.close.1.close.2 = [LibCall.imgQuit, LibCall.sdlQuit]
      ∧ m.close.1.gTexture = none ∧ m.close.1.gWindow = none
      ∧ m.close.1.gRenderer = none
      ∧ m.close.1.close.2 = [LibCall.imgQuit, LibCall.sdlQuit] := by
  refine ⟨rfl, rfl, rfl, rfl, rfl, rfl, rfl, ?_⟩
  have hf : m.gFooTexture.free.1.free = (m.gFooTexture.free.1, []) :=
    free_free m.gFooTexture
  have hb : m.gBackgroundTexture.free.1.free = (m.gBackgroundTexture.free.1, []) :=
    free_free m.gBackgroundTexture
  simp [MainGlobals.close, hf, hb, cleanup, cleanup1]
